import Mathlib

/-!
# kubetest2-dkp-aws: the deployer lifecycle

A shallow embedding of the two deployer implementations of the repository,
`pkg/deployer/deployer.go` (namespace `Pkg`) and
`kubetest2-dkp-aws/deployer/deployer.go` (namespace `Kubetest2DkpAws`).

The external world is explicit:
* launching a process (`exec.Command(...).Run()`) is answered by an oracle
  `Exec`, which sees every earlier runner call, the program and its arguments;
* every call of `runner` is appended to a log together with the exit code it
  returned to its caller;
* the Kubernetes client and the process environment are records of functions.

A Go `error` is an `Option String`: `none` is `nil`, `some msg` is an error
with message `msg`.  The `stdout`/`stderr` writers are pass-through streams
and carry no state of the deployer; they are left out.
-/

namespace Deployer

/-! ## Data model -/

/-- The value returned by `c.Run()` of `os/exec`. -/
inductive RunOutcome where
  /-- `Run` returned `nil`: the process started, ran and exited with status 0. -/
  | ok : RunOutcome
  /-- `Run` returned an `*exec.ExitError` whose `ExitCode()` is `code`. -/
  | exitError (code : Int) : RunOutcome
  /-- `Run` returned an error of another type (the program was not found,
  could not be started, an I/O failure while copying the streams, ...). -/
  | otherError (msg : String) : RunOutcome
deriving DecidableEq, Repr

/-- One call of `runner`: the program, the argument vector handed to
`exec.Command`, and the exit code `runner` returned. -/
structure RunnerCall where
  cmd : String
  args : List String
  exitCode : Int
deriving DecidableEq, Repr

/-- The process launcher: given the runner calls made so far, the program and
its arguments, what `c.Run()` returns. -/
abbrev Exec := List RunnerCall → String → List String → RunOutcome

/-- The `deployer` struct (the same in both files).  `Options` stands for
`types.Options` of kubetest2. -/
structure deployer (Options : Type) where
  commonOptions : Options
  ClusterName : String
  KuberneteVersion : String
  Ami : String
  KubeconfigPath : String
deriving DecidableEq, Repr

/-- The result of a method call: the returned value, the deployer afterwards
(methods have a pointer receiver) and the log of runner calls afterwards. -/
structure Res (α : Type) (Options : Type) where
  ret : α
  d : deployer Options
  log : List RunnerCall

/-- `New`: only `commonOptions` is set, every string field has its zero value. -/
def New {Options : Type} (opts : Options) : deployer Options :=
  { commonOptions := opts, ClusterName := "", KuberneteVersion := "", Ami := "",
    KubeconfigPath := "" }

/-- A condition of a node (`v1.NodeCondition`): its type and its status. -/
structure NodeCondition where
  Type_ : String
  Status : String
deriving DecidableEq, Repr

/-- The status of a node (`v1.NodeStatus`), reduced to its conditions. -/
structure NodeStatus where
  Conditions : List NodeCondition
deriving DecidableEq, Repr

/-- A node (`v1.Node`), reduced to its status. -/
structure Node where
  Status : NodeStatus
deriving DecidableEq, Repr

/-- The answer of the list-nodes call (`v1.NodeList`). -/
structure NodeList where
  Items : List Node
deriving DecidableEq, Repr

/-- The Kubernetes client library as used by the deep `IsUp`. -/
structure KubeAPI where
  Config : Type
  Clientset : Type
  /-- `clientcmd.BuildConfigFromFlags(masterUrl, kubeconfigPath)`. -/
  BuildConfigFromFlags : String → String → Except String Config
  /-- `kubernetes.NewForConfig(config)`. -/
  NewForConfig : Config → Except String Clientset
  /-- `clientset.CoreV1().Nodes().List(ctx, v1.ListOptions{})`. -/
  ListNodes : Clientset → Except String NodeList

/-- The process environment as read by `Kubeconfig`. -/
structure OS where
  /-- `os.LookupEnv(key)`: `none` when the variable is not set. -/
  LookupEnv : String → Option String
  /-- `os.UserHomeDir()`. -/
  UserHomeDir : Except String String

/-! ## `path/filepath` (Unix)

`Kubeconfig` calls `filepath.Join` of the Go standard library.  The two
functions below follow the library's `Clean` and `Join` for a Unix target
(separator `/`, no volume names), on the characters of the path. -/

/-- The backtracking of `Clean` at a `..` element, after `out.w--`: `out.w` is
decremented while `out.w > dotdot` and `out.index(out.w)` is not a separator. -/
def cleanBack (out : List Char) (dotdot : Nat) : Nat → Nat
  | 0 => 0
  | w + 1 =>
    if w + 1 > dotdot ∧ out.getD (w + 1) '/' ≠ '/' then cleanBack out dotdot w else w + 1

/-- The main loop of `Clean`: `path` is what is left to read (`path[r:]`),
`out` the buffer written so far (`out.w = out.length`), `dotdot` the index
where `..` must stop.  Every iteration reads at least one character, so
`fuel = path.length` iterations are enough. -/
def cleanLoop (rooted : Bool) : Nat → List Char → List Char → Nat → List Char
  | 0, _, out, _ => out
  | fuel + 1, path, out, dotdot =>
    match path with
    | [] => out
    | c :: rest =>
      if c = '/' then
        -- empty path element
        cleanLoop rooted fuel rest out dotdot
      else if c = '.' ∧ (rest = [] ∨ rest.head? = some '/') then
        -- . element
        cleanLoop rooted fuel rest out dotdot
      else if c = '.' ∧ rest.head? = some '.' ∧
          (rest.tail = [] ∨ rest.tail.head? = some '/') then
        -- .. element: remove to last separator
        if out.length > dotdot then
          -- can backtrack
          cleanLoop rooted fuel rest.tail
            (out.take (cleanBack out dotdot (out.length - 1))) dotdot
        else if rooted = false then
          -- cannot backtrack, but not rooted, so append .. element
          let out1 := (if out.length > 0 then out ++ ['/'] else out) ++ ['.', '.']
          cleanLoop rooted fuel rest.tail out1 out1.length
        else
          cleanLoop rooted fuel rest.tail out dotdot
      else
        -- real path element: add slash if needed, copy element
        let out1 :=
          if (rooted = true ∧ out.length ≠ 1) ∨ (rooted = false ∧ out.length ≠ 0) then
            out ++ ['/']
          else out
        cleanLoop rooted fuel (path.dropWhile (fun b => b ≠ '/'))
          (out1 ++ path.takeWhile (fun b => b ≠ '/')) dotdot

/-- The function `filepath.Clean`: the shortest path name equivalent to `path`
by purely lexical processing. -/
def filepathClean (path : String) : String :=
  match path.data with
  | [] => "."
  | c :: rest =>
    let out :=
      if c = '/' then cleanLoop true rest.length rest ['/'] 1
      else cleanLoop false (c :: rest).length (c :: rest) [] 0
    -- Turn empty string into "."
    if out = [] then "." else String.mk out

/-- The function `filepath.Join`: the elements from the first non-empty one on,
joined with the separator, and the result cleaned; `""` when every element is
empty. -/
def filepathJoin : List String → String
  | [] => ""
  | e :: rest =>
    if e ≠ "" then filepathClean ("/".intercalate (e :: rest)) else filepathJoin rest

/-- What the loop of `Clean` writes for the two elements `.kube` and `config`
after a buffer `out`. -/
def appendKubeConfig (rooted : Bool) (out : List Char) : List Char :=
  (if (rooted = true ∧ out.length ≠ 1) ∨ (rooted = false ∧ out.length ≠ 0) then out ++ ['/']
    else out) ++ ['.', 'k', 'u', 'b', 'e', '/', 'c', 'o', 'n', 'f', 'i', 'g']

/-! ## `pkg/deployer/deployer.go` -/

namespace Pkg

/-- The function `runner`: executes the command with the given arguments and
returns its exit code. -/
def runner (run : Exec) (log : List RunnerCall) (cmd : String) (args : List String) :
    Int × List RunnerCall :=
  let cmdArgs : List String := [] ++ args
  let exitCode : Int :=
    match run log cmd cmdArgs with
    | RunOutcome.ok => 0
    | RunOutcome.exitError code => code
    | RunOutcome.otherError _ => 0
  (exitCode, log ++ [RunnerCall.mk cmd cmdArgs exitCode])

/-- The argument vector built by `Up`. -/
def upArgs {Options : Type} (d : deployer Options) : List String :=
  ["create", "cluster", "aws",
   "--cluster-name", d.ClusterName,
   "--ami", d.Ami,
   "--kubernetes-version", d.KuberneteVersion,
   "--with-aws-bootstrap-credentials=true",
   "--self-managed"]

/-- The method `Up`. -/
def Up {Options : Type} (run : Exec) (d : deployer Options) (log : List RunnerCall) :
    Res (Option String) Options :=
  let args := upArgs d
  let r := runner run log "dkp" args
  if r.1 ≠ 0 then
    Res.mk (some "failed to run dkp create cluster") d r.2
  else
    Res.mk none { d with KubeconfigPath := d.ClusterName ++ ".conf" } r.2

/-- The four argument vectors `command_args` built by `Down`. -/
def downCommandArgs {Options : Type} (d : deployer Options) : List (List String) :=
  [["create", "bootstrap", "--with-aws-bootstrap-credentials=true"],
   ["move", "capi-resources", "--from-kubeconfig", d.KubeconfigPath,
    "--to-context", "kind-konvoy-capi-bootstrapper"],
   ["delete", "cluster", "--cluster-name", d.ClusterName],
   ["delete", "bootstrap"]]

/-- The loop of `Down` over `command_args`: the first non-zero exit code
returns the error, the end of the list returns `nil`. -/
def downLoop (run : Exec) : List (List String) → List RunnerCall →
    Option String × List RunnerCall
  | [], log => (none, log)
  | args :: rest, log =>
    let r := runner run log "dkp" args
    if r.1 ≠ 0 then (some "failed to delete dkp cluster", r.2)
    else downLoop run rest r.2

/-- The method `Down` (bootstrap-mediated teardown). -/
def Down {Options : Type} (run : Exec) (d : deployer Options) (log : List RunnerCall) :
    Res (Option String) Options :=
  let r := downLoop run (downCommandArgs d) log
  Res.mk r.1 d r.2

/-- The inner loop of `IsUp` over the conditions of one node: `true` when the
loop returns from `IsUp` (a `Ready` condition whose status is not `True`). -/
def notReady : List NodeCondition → Bool
  | [] => false
  | condition :: rest =>
    if condition.Type_ = "Ready" ∧ condition.Status ≠ "True" then true
    else notReady rest

/-- The outer loop of `IsUp` over the nodes, and the final `return true, nil`. -/
def nodesLoop : List Node → Bool × Option String
  | [] => (true, none)
  | node :: rest =>
    if notReady node.Status.Conditions then (false, some "cluster nodes are not ready yet")
    else nodesLoop rest

/-- The method `IsUp` (deep check through the API). -/
def IsUp {Options : Type} (api : KubeAPI) (d : deployer Options) (log : List RunnerCall) :
    Res (Bool × Option String) Options :=
  match api.BuildConfigFromFlags "" d.KubeconfigPath with
  | Except.error err => Res.mk (false, some err) d log
  | Except.ok config =>
    match api.NewForConfig config with
    | Except.error err => Res.mk (false, some err) d log
    | Except.ok clientset =>
      match api.ListNodes clientset with
      | Except.error err => Res.mk (false, some err) d log
      | Except.ok nodes => Res.mk (nodesLoop nodes.Items) d log

/-- The method `Kubeconfig`. -/
def Kubeconfig {Options : Type} (os : OS) (d : deployer Options) (log : List RunnerCall) :
    Res (String × Option String) Options :=
  if d.KubeconfigPath ≠ "" then Res.mk (d.KubeconfigPath, none) d log
  else
    match os.LookupEnv "KUBECONFIG" with
    | some kconfig => Res.mk (kconfig, none) d log
    | none =>
      match os.UserHomeDir with
      | Except.error err => Res.mk ("", some err) d log
      | Except.ok home => Res.mk (filepathJoin [home, ".kube", "config"], none) d log

end Pkg

/-! ## `kubetest2-dkp-aws/deployer/deployer.go` -/

namespace Kubetest2DkpAws

/-- The function `runner`: executes the command with the given arguments and
returns its exit code. -/
def runner (run : Exec) (log : List RunnerCall) (cmd : String) (args : List String) :
    Int × List RunnerCall :=
  let cmdArgs : List String := [] ++ args
  let exitCode : Int :=
    match run log cmd cmdArgs with
    | RunOutcome.ok => 0
    | RunOutcome.exitError code => code
    | RunOutcome.otherError _ => 0
  (exitCode, log ++ [RunnerCall.mk cmd cmdArgs exitCode])

/-- The argument vector built by `Up`. -/
def upArgs {Options : Type} (d : deployer Options) : List String :=
  ["create", "cluster", "aws",
   "--cluster-name", d.ClusterName,
   "--ami", d.Ami,
   "--kubernetes-version", d.KuberneteVersion,
   "--with-aws-bootstrap-credentials=true",
   "--self-managed"]

/-- The method `Up`. -/
def Up {Options : Type} (run : Exec) (d : deployer Options) (log : List RunnerCall) :
    Res (Option String) Options :=
  let args := upArgs d
  let r := runner run log "dkp" args
  if r.1 ≠ 0 then
    Res.mk (some "failed to run dkp create cluster") d r.2
  else
    Res.mk none { d with KubeconfigPath := d.ClusterName ++ ".conf" } r.2

/-- The argument vector built by `Down`. -/
def downArgs {Options : Type} (d : deployer Options) : List String :=
  ["delete", "cluster",
   "--cluster-name", d.ClusterName,
   "--with-aws-bootstrap-credentials=true",
   "--kubeconfig", d.KubeconfigPath]

/-- The method `Down` (direct teardown). -/
def Down {Options : Type} (run : Exec) (d : deployer Options) (log : List RunnerCall) :
    Res (Option String) Options :=
  let args := downArgs d
  let r := runner run log "dkp" args
  if r.1 ≠ 0 then
    Res.mk (some "failed to run dkp delete cluster") d r.2
  else
    Res.mk none d r.2

/-- The argument vector built by `IsUp`. -/
def isUpArgs {Options : Type} (d : deployer Options) : List String :=
  ["get", "nodes", "--kubeconfig", d.KubeconfigPath]

/-- The method `IsUp` (shallow check through `kubectl`). -/
def IsUp {Options : Type} (run : Exec) (d : deployer Options) (log : List RunnerCall) :
    Res (Bool × Option String) Options :=
  let args := isUpArgs d
  let r := runner run log "kubectl" args
  if r.1 ≠ 0 then
    Res.mk (false, some "Cluster is not up") d r.2
  else
    Res.mk (true, none) d r.2

/-- The method `Kubeconfig`. -/
def Kubeconfig {Options : Type} (os : OS) (d : deployer Options) (log : List RunnerCall) :
    Res (String × Option String) Options :=
  if d.KubeconfigPath ≠ "" then Res.mk (d.KubeconfigPath, none) d log
  else
    match os.LookupEnv "KUBECONFIG" with
    | some kconfig => Res.mk (kconfig, none) d log
    | none =>
      match os.UserHomeDir with
      | Except.error err => Res.mk ("", some err) d log
      | Except.ok home => Res.mk (filepathJoin [home, ".kube", "config"], none) d log

end Kubetest2DkpAws

/-! ## Both implementations, and sequences of calls -/

/-- The two deployer implementations of the repository. -/
inductive Impl where
  /-- The file `pkg/deployer/deployer.go`. -/
  | pkg : Impl
  /-- The file `kubetest2-dkp-aws/deployer/deployer.go`. -/
  | kubetest2DkpAws : Impl
deriving DecidableEq, Repr

/-- The function `runner` of an implementation. -/
def Impl.runner : Impl → Exec → List RunnerCall → String → List String →
    Int × List RunnerCall
  | Impl.pkg => Pkg.runner
  | Impl.kubetest2DkpAws => Kubetest2DkpAws.runner

/-- The argument vector `Up` builds in an implementation. -/
def Impl.upArgs {Options : Type} : Impl → deployer Options → List String
  | Impl.pkg => Pkg.upArgs
  | Impl.kubetest2DkpAws => Kubetest2DkpAws.upArgs

/-- The method `Up` of an implementation. -/
def Impl.Up {Options : Type} : Impl → Exec → deployer Options → List RunnerCall →
    Res (Option String) Options
  | Impl.pkg => Pkg.Up
  | Impl.kubetest2DkpAws => Kubetest2DkpAws.Up

/-- The method `Down` of an implementation. -/
def Impl.Down {Options : Type} : Impl → Exec → deployer Options → List RunnerCall →
    Res (Option String) Options
  | Impl.pkg => Pkg.Down
  | Impl.kubetest2DkpAws => Kubetest2DkpAws.Down

/-- The method `IsUp` of an implementation: the deep check reads the API, the
shallow one runs a command. -/
def Impl.IsUp {Options : Type} : Impl → Exec → KubeAPI → deployer Options →
    List RunnerCall → Res (Bool × Option String) Options
  | Impl.pkg => fun _ api => Pkg.IsUp api
  | Impl.kubetest2DkpAws => fun run _ => Kubetest2DkpAws.IsUp run

/-- The method `Kubeconfig` of an implementation. -/
def Impl.Kubeconfig {Options : Type} : Impl → OS → deployer Options → List RunnerCall →
    Res (String × Option String) Options
  | Impl.pkg => Pkg.Kubeconfig
  | Impl.kubetest2DkpAws => Kubetest2DkpAws.Kubeconfig

/-- A call of one of the four lifecycle methods. -/
inductive Call where
  | Up : Call
  | Down : Call
  | IsUp : Call
  | Kubeconfig : Call
deriving DecidableEq, Repr

/-- The world around a sequence of calls: the process launcher, and the API
and process environment as they answer during the `n`-th call. -/
structure World where
  run : Exec
  api : Nat → KubeAPI
  os : Nat → OS

/-- What is observed of one call of a sequence: the method, the runner calls
it made (with the exit codes reported to it), the error it returned and the
value of `KubeconfigPath` when it returned. -/
structure Event where
  call : Call
  ran : List RunnerCall
  err : Option String
  kubeconfigPath : String
deriving DecidableEq, Repr

/-- One call, the `n`-th of a sequence: its error result, the deployer and the
log afterwards. -/
def Impl.step {Options : Type} (impl : Impl) (w : World) (n : Nat) (c : Call)
    (d : deployer Options) (log : List RunnerCall) : Res (Option String) Options :=
  match c with
  | Call.Up => impl.Up w.run d log
  | Call.Down => impl.Down w.run d log
  | Call.IsUp =>
    let r := impl.IsUp w.run (w.api n) d log
    Res.mk r.ret.2 r.d r.log
  | Call.Kubeconfig =>
    let r := impl.Kubeconfig (w.os n) d log
    Res.mk r.ret.2 r.d r.log

/-- A finite sequence of calls on one deployer, the first being the `n`-th:
the events observed, and the deployer and log at the end. -/
def Impl.calls {Options : Type} (impl : Impl) (w : World) :
    Nat → List Call → deployer Options → List RunnerCall →
      List Event × deployer Options × List RunnerCall
  | _, [], d, log => ([], d, log)
  | n, c :: cs, d, log =>
    let r := impl.step w n c d log
    let t := Impl.calls impl w (n + 1) cs r.d r.log
    (Event.mk c (r.log.drop log.length) r.ret r.d.KubeconfigPath :: t.1, t.2)

/-! ## Vocabulary of the statements about the bootstrap-mediated `Down` -/

/-- The runner calls of the first `n` steps of `Pkg.Down` when each of them
is reported with exit code 0. -/
def Pkg.downZeroCalls {Options : Type} (d : deployer Options) (n : Nat) : List RunnerCall :=
  ((Pkg.downCommandArgs d).take n).map (fun args => RunnerCall.mk "dkp" args 0)

/-- The exit code the runner reports for step `n + 1` of `Pkg.Down` started
at `log`, once the `n` steps before it have been reported with exit code 0. -/
def Pkg.downStepCode {Options : Type} (run : Exec) (d : deployer Options)
    (log : List RunnerCall) (n : Nat) : Int :=
  (Pkg.runner run (log ++ Pkg.downZeroCalls d n) "dkp" ((Pkg.downCommandArgs d).getD n [])).1

/-! ## Concrete worlds used in the examples -/

/-- A concrete deployer: the scenario of the specification, before `Up`. -/
def ciTest : deployer Unit :=
  { commonOptions := (), ClusterName := "ci-test-1", KuberneteVersion := "1.27.0",
    Ami := "ami-123", KubeconfigPath := "" }

/-- The deployer `ciTest` after a successful `Up`. -/
def ciTestUp : deployer Unit :=
  { ciTest with KubeconfigPath := "ci-test-1.conf" }

/-- A launcher under which every process exits with status 0. -/
def runOk : Exec := fun _ _ _ => RunOutcome.ok

/-- A launcher under which every process exits with status 1. -/
def runExit1 : Exec := fun _ _ _ => RunOutcome.exitError 1

/-- A launcher under which the process launched after `n` runner calls exits
with status 1 and every other one with status 0. -/
def runFailAfter (n : Nat) : Exec :=
  fun log _ _ => if log.length = n then RunOutcome.exitError 1 else RunOutcome.ok

/-- A launcher under which no process can be started: the program is not
installed. -/
def runNotFound : Exec :=
  fun _ _ _ => RunOutcome.otherError "executable file not found in $PATH"

/-- A client library whose three calls succeed, the last with `nodes`. -/
def apiReturning (nodes : NodeList) : KubeAPI :=
  { Config := Unit, Clientset := Unit,
    BuildConfigFromFlags := fun _ _ => Except.ok (),
    NewForConfig := fun _ => Except.ok (),
    ListNodes := fun _ => Except.ok nodes }

/-- A node whose only `Ready` condition has the given status, next to a
condition of another type. -/
def nodeWithReady (status : String) : Node :=
  Node.mk (NodeStatus.mk
    [NodeCondition.mk "MemoryPressure" "False", NodeCondition.mk "Ready" status])

/-- A node that carries no `Ready` condition. -/
def nodeWithoutReady : Node :=
  Node.mk (NodeStatus.mk [NodeCondition.mk "DiskPressure" "Unknown"])

/-- A process environment with no variable set and home directory `/home/ci`. -/
def osPlain : OS :=
  { LookupEnv := fun _ => none, UserHomeDir := Except.ok "/home/ci" }

/-- A world in which every process exits with status 1, the cluster has no
node and the environment is `osPlain`. -/
def worldExit1 : World :=
  { run := runExit1, api := fun _ => apiReturning (NodeList.mk []), os := fun _ => osPlain }

/-- A process environment with no variable set and home directory `/`. -/
def osRootHome : OS :=
  { LookupEnv := fun _ => none, UserHomeDir := Except.ok "/" }

/-- A process environment in which `KUBECONFIG` is set to the empty string. -/
def osEmptyKubeconfig : OS :=
  { LookupEnv := fun key => if key = "KUBECONFIG" then some "" else none,
    UserHomeDir := Except.ok "/home/ci" }

/-- A process environment with no variable set and no home directory. -/
def osNoHome : OS :=
  { LookupEnv := fun _ => none, UserHomeDir := Except.error "$HOME is not defined" }

/-- A sequence of calls in which `Up` is tried three times. -/
def retryCalls : List Call :=
  [Call.Up, Call.IsUp, Call.Up, Call.Kubeconfig, Call.Down, Call.Up]

/-! ## Properties -/

theorem Pkg.runner_log (run : Exec) (log : List RunnerCall) (cmd : String)
    (args : List String) :
    (Pkg.runner run log cmd args).2 =
      log ++ [RunnerCall.mk cmd args (Pkg.runner run log cmd args).1] := rfl

theorem Kubetest2DkpAws.runner_appends_call (run : Exec) (log : List RunnerCall) (cmd : String)
    (args : List String) :
    (Kubetest2DkpAws.runner run log cmd args).2 =
      log ++ [RunnerCall.mk cmd args (Kubetest2DkpAws.runner run log cmd args).1] := rfl

theorem up_success_ret {Options : Type} (impl : Impl) (run : Exec)
    (d : deployer Options) (log : List RunnerCall)
    (h : (impl.runner run log "dkp" (impl.upArgs d)).1 = 0) :
    (impl.Up run d log).ret = none := by
  cases impl
  · simp only [Impl.runner, Impl.upArgs] at h
    simp [Impl.Up, Pkg.Up, h]
  · simp only [Impl.runner, Impl.upArgs] at h
    simp [Impl.Up, Kubetest2DkpAws.Up, h]

/-- C1: in both implementations, when the runner reports exit code 0 for the
create-cluster command, `Up` returns a nil error and afterwards
`KubeconfigPath` is `ClusterName` followed by `.conf`, whatever it was before. -/
theorem up_success_sets_kubeconfigPath {Options : Type} (impl : Impl) (run : Exec)
    (d : deployer Options) (log : List RunnerCall)
    (h : (impl.runner run log "dkp" (impl.upArgs d)).1 = 0) :
    (impl.Up run d log).ret = none ∧
      (impl.Up run d log).d.KubeconfigPath = d.ClusterName ++ ".conf" := by
  cases impl
  · simp only [Impl.runner, Impl.upArgs] at h
    simp [Impl.Up, Pkg.Up, h]
  · simp only [Impl.runner, Impl.upArgs] at h
    simp [Impl.Up, Kubetest2DkpAws.Up, h]

theorem up_success_sets_kubeconfigPath_witness :
    ((Impl.pkg.runner runOk [] "dkp" (Impl.pkg.upArgs ciTest)).1 = 0 ∧
      (Impl.pkg.Up runOk ciTest []).ret = none ∧
      (Impl.pkg.Up runOk ciTest []).d.KubeconfigPath = "ci-test-1.conf") ∧
    ((Impl.kubetest2DkpAws.runner runOk [] "dkp" (Impl.kubetest2DkpAws.upArgs ciTest)).1 = 0 ∧
      (Impl.kubetest2DkpAws.Up runOk ciTest []).ret = none ∧
      (Impl.kubetest2DkpAws.Up runOk ciTest []).d.KubeconfigPath = "ci-test-1.conf") :=
  ⟨⟨by decide, up_success_sets_kubeconfigPath Impl.pkg runOk ciTest [] (by decide)⟩,
   ⟨by decide, up_success_sets_kubeconfigPath Impl.kubetest2DkpAws runOk ciTest [] (by decide)⟩⟩

/-! ### Failed `Up` calls never set the path -/

theorem Impl.Down_d {Options : Type} (impl : Impl) (run : Exec) (d : deployer Options)
    (log : List RunnerCall) : (impl.Down run d log).d = d := by
  cases impl
  · rfl
  · simp only [Impl.Down, Kubetest2DkpAws.Down]
    split <;> rfl

theorem Impl.IsUp_d {Options : Type} (impl : Impl) (run : Exec) (api : KubeAPI)
    (d : deployer Options) (log : List RunnerCall) : (impl.IsUp run api d log).d = d := by
  cases impl
  · simp only [Impl.IsUp, Pkg.IsUp]
    split
    · rfl
    · split
      · rfl
      · split <;> rfl
  · simp only [Impl.IsUp, Kubetest2DkpAws.IsUp]
    split <;> rfl

theorem Impl.Kubeconfig_d {Options : Type} (impl : Impl) (os : OS) (d : deployer Options)
    (log : List RunnerCall) : (impl.Kubeconfig os d log).d = d := by
  cases impl
  · simp only [Impl.Kubeconfig, Pkg.Kubeconfig]
    split
    · rfl
    · split
      · rfl
      · split <;> rfl
  · simp only [Impl.Kubeconfig, Kubetest2DkpAws.Kubeconfig]
    split
    · rfl
    · split
      · rfl
      · split <;> rfl

theorem Impl.Up_log {Options : Type} (impl : Impl) (run : Exec) (d : deployer Options)
    (log : List RunnerCall) :
    (impl.Up run d log).log =
      log ++ [RunnerCall.mk "dkp" (impl.upArgs d) (impl.runner run log "dkp" (impl.upArgs d)).1] := by
  cases impl
  · simp only [Impl.Up, Pkg.Up, Impl.upArgs, Impl.runner]
    split <;> rfl
  · simp only [Impl.Up, Kubetest2DkpAws.Up, Impl.upArgs, Impl.runner]
    split <;> rfl

theorem Impl.Up_failure {Options : Type} (impl : Impl) (run : Exec) (d : deployer Options)
    (log : List RunnerCall) (h : (impl.runner run log "dkp" (impl.upArgs d)).1 ≠ 0) :
    (impl.Up run d log).ret = some "failed to run dkp create cluster" ∧
      (impl.Up run d log).d = d := by
  cases impl
  · simp only [Impl.runner, Impl.upArgs] at h
    simp [Impl.Up, Pkg.Up, h]
  · simp only [Impl.runner, Impl.upArgs] at h
    simp [Impl.Up, Kubetest2DkpAws.Up, h]

/-- One call keeps an empty path empty when, if it is an `Up`, its command
is reported with a non-zero exit code; and that `Up` returns an error. -/
theorem Impl.step_keeps_empty {Options : Type} (impl : Impl) (w : World) (n : Nat)
    (c : Call) (d : deployer Options) (log : List RunnerCall)
    (hd : d.KubeconfigPath = "")
    (hc : c = Call.Up →
      ∀ rc ∈ (impl.step w n c d log).log.drop log.length, rc.exitCode ≠ 0) :
    (impl.step w n c d log).d.KubeconfigPath = "" ∧
      (c = Call.Up → (impl.step w n c d log).ret ≠ none) := by
  cases c with
  | Up =>
    have hcode : (impl.runner w.run log "dkp" (impl.upArgs d)).1 ≠ 0 := by
      have h1 := hc rfl
      simp only [Impl.step, Impl.Up_log, List.drop_left] at h1
      exact h1 _ (List.mem_singleton.mpr rfl)
    have h2 := Impl.Up_failure impl w.run d log hcode
    simp only [Impl.step]
    rw [h2.1, h2.2]
    exact ⟨hd, fun _ => by simp⟩
  | Down =>
    simp only [Impl.step, Impl.Down_d]
    exact ⟨hd, fun h => by cases h⟩
  | IsUp =>
    simp only [Impl.step, Impl.IsUp_d]
    exact ⟨hd, fun h => by cases h⟩
  | Kubeconfig =>
    simp only [Impl.step, Impl.Kubeconfig_d]
    exact ⟨hd, fun h => by cases h⟩

/-- C2: in both implementations, starting from a deployer whose
`KubeconfigPath` is empty (as `New` constructs it), after every finite
sequence of `Up`, `Down`, `IsUp` and `Kubeconfig` calls in which the command
of every `Up` is reported with a non-zero exit code, each of those `Up` calls
has returned a non-nil error and `KubeconfigPath` is empty after every call
and at the end. -/
theorem failed_ups_keep_kubeconfigPath_empty {Options : Type} (impl : Impl) (w : World)
    (cs : List Call) (n : Nat) (d : deployer Options) (log : List RunnerCall)
    (hd : d.KubeconfigPath = "")
    (hfail : ∀ e ∈ (impl.calls w n cs d log).1, e.call = Call.Up →
      ∀ rc ∈ e.ran, rc.exitCode ≠ 0) :
    (∀ e ∈ (impl.calls w n cs d log).1, e.call = Call.Up → e.err ≠ none) ∧
      (∀ e ∈ (impl.calls w n cs d log).1, e.kubeconfigPath = "") ∧
      (impl.calls w n cs d log).2.1.KubeconfigPath = "" := by
  induction cs generalizing n d log with
  | nil => exact ⟨fun e he => (by cases he), fun e he => (by cases he), hd⟩
  | cons c cs ih =>
    simp only [Impl.calls, List.mem_cons, forall_eq_or_imp] at hfail ⊢
    obtain ⟨hhead, htail⟩ := hfail
    have hs := Impl.step_keeps_empty impl w n c d log hd hhead
    have ht := ih (n + 1) (impl.step w n c d log).d (impl.step w n c d log).log hs.1 htail
    refine ⟨⟨?_, ht.1⟩, ⟨?_, ht.2.1⟩, ht.2.2⟩
    · exact hs.2
    · exact hs.1

theorem failed_ups_keep_kubeconfigPath_empty_witness :
    ((New ()).KubeconfigPath = "" ∧
      (∀ e ∈ (Impl.pkg.calls worldExit1 0 retryCalls (New ()) []).1, e.call = Call.Up →
        ∀ rc ∈ e.ran, rc.exitCode ≠ 0) ∧
      (∀ e ∈ (Impl.pkg.calls worldExit1 0 retryCalls (New ()) []).1,
        e.call = Call.Up → e.err ≠ none) ∧
      (∀ e ∈ (Impl.pkg.calls worldExit1 0 retryCalls (New ()) []).1,
        e.kubeconfigPath = "") ∧
      (Impl.pkg.calls worldExit1 0 retryCalls (New ()) []).2.1.KubeconfigPath = "") ∧
    (ciTest.KubeconfigPath = "" ∧
      (∀ e ∈ (Impl.kubetest2DkpAws.calls worldExit1 0 retryCalls ciTest []).1,
        e.call = Call.Up → ∀ rc ∈ e.ran, rc.exitCode ≠ 0) ∧
      (∀ e ∈ (Impl.kubetest2DkpAws.calls worldExit1 0 retryCalls ciTest []).1,
        e.call = Call.Up → e.err ≠ none) ∧
      (∀ e ∈ (Impl.kubetest2DkpAws.calls worldExit1 0 retryCalls ciTest []).1,
        e.kubeconfigPath = "") ∧
      (Impl.kubetest2DkpAws.calls worldExit1 0 retryCalls ciTest []).2.1.KubeconfigPath = "") :=
  ⟨⟨by decide, by decide,
    failed_ups_keep_kubeconfigPath_empty Impl.pkg worldExit1 retryCalls 0 (New ()) []
      (by decide) (by decide)⟩,
   ⟨by decide, by decide,
    failed_ups_keep_kubeconfigPath_empty Impl.kubetest2DkpAws worldExit1 retryCalls 0 ciTest []
      (by decide) (by decide)⟩⟩

/-! ### The bootstrap-mediated `Down` -/

theorem Pkg.downLoop_zero (run : Exec) (args : List String) (rest : List (List String))
    (log : List RunnerCall) (h : (Pkg.runner run log "dkp" args).1 = 0) :
    Pkg.downLoop run (args :: rest) log =
      Pkg.downLoop run rest (log ++ [RunnerCall.mk "dkp" args 0]) := by
  have hlog := Pkg.runner_log run log "dkp" args
  rw [h] at hlog
  simp [Pkg.downLoop, h, hlog]

theorem Pkg.downLoop_fail (run : Exec) (args : List String) (rest : List (List String))
    (log : List RunnerCall) (h : (Pkg.runner run log "dkp" args).1 ≠ 0) :
    Pkg.downLoop run (args :: rest) log =
      (some "failed to delete dkp cluster",
        log ++ [RunnerCall.mk "dkp" args (Pkg.runner run log "dkp" args).1]) := by
  simp [Pkg.downLoop, h, Pkg.runner_log]

/-- The loop of `Down` on any table of commands: it stops at the first step
reported with a non-zero exit code. -/
theorem Pkg.downLoop_first_failure (run : Exec) (cmds : List (List String)) (n : Nat)
    (log : List RunnerCall) (hn : n < cmds.length)
    (hzero : ∀ k : Nat, k < n →
      (Pkg.runner run (log ++ (cmds.take k).map (fun args => RunnerCall.mk "dkp" args 0))
        "dkp" (cmds.getD k [])).1 = 0)
    (hfail :
      (Pkg.runner run (log ++ (cmds.take n).map (fun args => RunnerCall.mk "dkp" args 0))
        "dkp" (cmds.getD n [])).1 ≠ 0) :
    Pkg.downLoop run cmds log =
      (some "failed to delete dkp cluster",
        log ++ (cmds.take n).map (fun args => RunnerCall.mk "dkp" args 0) ++
          [RunnerCall.mk "dkp" (cmds.getD n [])
            (Pkg.runner run (log ++ (cmds.take n).map (fun args => RunnerCall.mk "dkp" args 0))
              "dkp" (cmds.getD n [])).1]) := by
  induction cmds generalizing n log with
  | nil => simp at hn
  | cons a rest ih =>
    cases n with
    | zero =>
      simp only [List.take_zero, List.map_nil, List.append_nil, List.getD_cons_zero] at hfail ⊢
      exact Pkg.downLoop_fail run a rest log hfail
    | succ m =>
      have h0 := hzero 0 (Nat.succ_pos m)
      simp only [List.take_zero, List.map_nil, List.append_nil, List.getD_cons_zero] at h0
      rw [Pkg.downLoop_zero run a rest log h0]
      have hm : m < rest.length := by simpa using hn
      have key := ih m (log ++ [RunnerCall.mk "dkp" a 0]) hm
        (fun k hk => by
          have := hzero (k + 1) (Nat.succ_lt_succ hk)
          simpa [List.append_assoc] using this)
        (by simpa [List.append_assoc] using hfail)
      simpa [List.append_assoc] using key

/-- The loop of `Down` on any table of commands: it runs them all when each
is reported with exit code 0. -/
theorem Pkg.downLoop_all_zero (run : Exec) (cmds : List (List String))
    (log : List RunnerCall)
    (hzero : ∀ k : Nat, k < cmds.length →
      (Pkg.runner run (log ++ (cmds.take k).map (fun args => RunnerCall.mk "dkp" args 0))
        "dkp" (cmds.getD k [])).1 = 0) :
    Pkg.downLoop run cmds log =
      (none, log ++ cmds.map (fun args => RunnerCall.mk "dkp" args 0)) := by
  induction cmds generalizing log with
  | nil => simp [Pkg.downLoop]
  | cons a rest ih =>
    have h0 := hzero 0 (by simp)
    simp only [List.take_zero, List.map_nil, List.append_nil, List.getD_cons_zero] at h0
    rw [Pkg.downLoop_zero run a rest log h0]
    have key := ih (log ++ [RunnerCall.mk "dkp" a 0])
      (fun k hk => by
        have := hzero (k + 1) (by simpa using hk)
        simpa [List.append_assoc] using this)
    simpa [List.append_assoc] using key

/-- C3: the bootstrap-mediated `Down` runs `dkp` with the four argument
vectors of its table, in that order, and stops at the first failing step: when
steps `1 .. N-1` are reported with exit code 0 and step `N` with a non-zero
one, exactly the first `N` steps are run and `Down` returns an error; when all
four are reported with exit code 0, exactly the four are run and `Down`
returns nil. -/
theorem down_bootstrap_ordered_stops_at_first_failure {Options : Type} (run : Exec)
    (d : deployer Options) (log : List RunnerCall) :
    Pkg.downCommandArgs d =
        [["create", "bootstrap", "--with-aws-bootstrap-credentials=true"],
         ["move", "capi-resources", "--from-kubeconfig", d.KubeconfigPath,
          "--to-context", "kind-konvoy-capi-bootstrapper"],
         ["delete", "cluster", "--cluster-name", d.ClusterName],
         ["delete", "bootstrap"]] ∧
      (∀ N : Nat, 1 ≤ N → N ≤ 4 →
        (∀ k : Nat, k < N - 1 → Pkg.downStepCode run d log k = 0) →
        Pkg.downStepCode run d log (N - 1) ≠ 0 →
          (Pkg.Down run d log).ret ≠ none ∧
          (Pkg.Down run d log).log =
            log ++ Pkg.downZeroCalls d (N - 1) ++
              [RunnerCall.mk "dkp" ((Pkg.downCommandArgs d).getD (N - 1) [])
                (Pkg.downStepCode run d log (N - 1))] ∧
          ((Pkg.Down run d log).log.drop log.length).map (fun rc => (rc.cmd, rc.args)) =
            ((Pkg.downCommandArgs d).take N).map (fun args => ("dkp", args))) ∧
      ((∀ k : Nat, k < 4 → Pkg.downStepCode run d log k = 0) →
          (Pkg.Down run d log).ret = none ∧
          (Pkg.Down run d log).log = log ++ Pkg.downZeroCalls d 4 ∧
          ((Pkg.Down run d log).log.drop log.length).map (fun rc => (rc.cmd, rc.args)) =
            (Pkg.downCommandArgs d).map (fun args => ("dkp", args))) := by
  refine ⟨rfl, ?_, ?_⟩
  · intro N h1 h4 hzero hfail
    have hlen : N - 1 < (Pkg.downCommandArgs d).length := by
      simp only [Pkg.downCommandArgs, List.length_cons, List.length_nil]
      omega
    have key := Pkg.downLoop_first_failure run (Pkg.downCommandArgs d) (N - 1) log hlen
      hzero hfail
    have hlog : (Pkg.Down run d log).log =
        log ++ Pkg.downZeroCalls d (N - 1) ++
          [RunnerCall.mk "dkp" ((Pkg.downCommandArgs d).getD (N - 1) [])
            (Pkg.downStepCode run d log (N - 1))] := by
      simp only [Pkg.Down, key]
      rfl
    refine ⟨?_, hlog, ?_⟩
    · simp [Pkg.Down, key]
    · rw [hlog, List.append_assoc, List.drop_left]
      have hN : N = 1 ∨ N = 2 ∨ N = 3 ∨ N = 4 := by omega
      rcases hN with rfl | rfl | rfl | rfl <;>
        simp [Pkg.downZeroCalls, Pkg.downCommandArgs]
  · intro hzero
    have key := Pkg.downLoop_all_zero run (Pkg.downCommandArgs d) log
      (fun k hk => hzero k (by simpa [Pkg.downCommandArgs] using hk))
    have hlog : (Pkg.Down run d log).log = log ++ Pkg.downZeroCalls d 4 := by
      simp only [Pkg.Down, key]
      simp [Pkg.downZeroCalls, Pkg.downCommandArgs]
    refine ⟨?_, hlog, ?_⟩
    · simp [Pkg.Down, key]
    · rw [hlog, List.drop_left]
      simp [Pkg.downZeroCalls, Pkg.downCommandArgs]

theorem down_bootstrap_ordered_stops_at_first_failure_witness :
    ((∀ k : Nat, k < 3 - 1 → Pkg.downStepCode (runFailAfter 2) ciTestUp [] k = 0) ∧
      Pkg.downStepCode (runFailAfter 2) ciTestUp [] (3 - 1) ≠ 0 ∧
      (Pkg.Down (runFailAfter 2) ciTestUp []).ret ≠ none ∧
      (Pkg.Down (runFailAfter 2) ciTestUp []).log =
        [RunnerCall.mk "dkp" ["create", "bootstrap", "--with-aws-bootstrap-credentials=true"] 0,
         RunnerCall.mk "dkp" ["move", "capi-resources", "--from-kubeconfig", "ci-test-1.conf",
           "--to-context", "kind-konvoy-capi-bootstrapper"] 0,
         RunnerCall.mk "dkp" ["delete", "cluster", "--cluster-name", "ci-test-1"] 1]) ∧
    ((∀ k : Nat, k < 4 → Pkg.downStepCode runOk ciTestUp [] k = 0) ∧
      (Pkg.Down runOk ciTestUp []).ret = none ∧
      (Pkg.Down runOk ciTestUp []).log =
        [RunnerCall.mk "dkp" ["create", "bootstrap", "--with-aws-bootstrap-credentials=true"] 0,
         RunnerCall.mk "dkp" ["move", "capi-resources", "--from-kubeconfig", "ci-test-1.conf",
           "--to-context", "kind-konvoy-capi-bootstrapper"] 0,
         RunnerCall.mk "dkp" ["delete", "cluster", "--cluster-name", "ci-test-1"] 0,
         RunnerCall.mk "dkp" ["delete", "bootstrap"] 0]) :=
  ⟨⟨by decide, by decide,
    ((down_bootstrap_ordered_stops_at_first_failure (runFailAfter 2) ciTestUp []).2.1 3
      (by decide) (by decide) (by decide) (by decide)).1,
    ((down_bootstrap_ordered_stops_at_first_failure (runFailAfter 2) ciTestUp []).2.1 3
      (by decide) (by decide) (by decide) (by decide)).2.1⟩,
   ⟨by decide,
    ((down_bootstrap_ordered_stops_at_first_failure runOk ciTestUp []).2.2 (by decide)).1,
    ((down_bootstrap_ordered_stops_at_first_failure runOk ciTestUp []).2.2 (by decide)).2.1⟩⟩

/-! ### The deep `IsUp` -/

theorem Pkg.notReady_iff (cs : List NodeCondition) :
    Pkg.notReady cs = true ↔ ∃ c ∈ cs, c.Type_ = "Ready" ∧ c.Status ≠ "True" := by
  induction cs with
  | nil => simp [Pkg.notReady]
  | cons c rest ih =>
    by_cases h : c.Type_ = "Ready" ∧ c.Status ≠ "True"
    · simp [Pkg.notReady, h]
    · simp only [Pkg.notReady, h, if_false, ih, List.exists_mem_cons_iff, false_or]

theorem Pkg.nodesLoop_cases (nodes : List Node) :
    ((∀ node ∈ nodes, Pkg.notReady node.Status.Conditions = false) ∧
        Pkg.nodesLoop nodes = (true, none)) ∨
      ((∃ node ∈ nodes, Pkg.notReady node.Status.Conditions = true) ∧
        Pkg.nodesLoop nodes = (false, some "cluster nodes are not ready yet")) := by
  induction nodes with
  | nil => left; simp [Pkg.nodesLoop]
  | cons node rest ih =>
    by_cases h : Pkg.notReady node.Status.Conditions = true
    · right
      simp [Pkg.nodesLoop, h]
    · rcases ih with ⟨h1, h2⟩ | ⟨h1, h2⟩
      · left
        simp only [Bool.not_eq_true] at h
        refine ⟨?_, ?_⟩
        · intro x hx
          rcases List.mem_cons.mp hx with rfl | hx
          · exact h
          · exact h1 x hx
        · simp [Pkg.nodesLoop, h, h2]
      · right
        obtain ⟨x, hx, hx2⟩ := h1
        refine ⟨⟨x, List.mem_cons_of_mem _ hx, hx2⟩, ?_⟩
        simp [Pkg.nodesLoop, h, h2]

/-- C4: when the three API calls succeed and return the node list `nodes`,
the deep `IsUp` returns `(true, nil)` exactly when no node has a condition of
type `Ready` whose status is not `True`, and `(false, err)` with a non-nil
`err` otherwise; it changes neither the deployer nor launches a process. -/
theorem isUp_deep_iff_no_explicit_not_ready {Options : Type} (api : KubeAPI)
    (d : deployer Options) (log : List RunnerCall) (config : api.Config)
    (clientset : api.Clientset) (nodes : NodeList)
    (hconfig : api.BuildConfigFromFlags "" d.KubeconfigPath = Except.ok config)
    (hclient : api.NewForConfig config = Except.ok clientset)
    (hlist : api.ListNodes clientset = Except.ok nodes) :
    ((Pkg.IsUp api d log).ret = (true, none) ↔
        ¬ ∃ node ∈ nodes.Items, ∃ c ∈ node.Status.Conditions,
          c.Type_ = "Ready" ∧ c.Status ≠ "True") ∧
      ((Pkg.IsUp api d log).ret ≠ (true, none) →
        (Pkg.IsUp api d log).ret.1 = false ∧ (Pkg.IsUp api d log).ret.2 ≠ none) ∧
      (Pkg.IsUp api d log).d = d ∧ (Pkg.IsUp api d log).log = log := by
  have hret : (Pkg.IsUp api d log).ret = Pkg.nodesLoop nodes.Items := by
    simp only [Pkg.IsUp, hconfig, hclient, hlist]
  have hd : (Pkg.IsUp api d log).d = d := by
    simp only [Pkg.IsUp, hconfig, hclient, hlist]
  have hl : (Pkg.IsUp api d log).log = log := by
    simp only [Pkg.IsUp, hconfig, hclient, hlist]
  rw [hret]
  refine ⟨?_, ?_, hd, hl⟩
  · rcases Pkg.nodesLoop_cases nodes.Items with ⟨h1, h2⟩ | ⟨h1, h2⟩
    · rw [h2]
      simp only [true_iff]
      rintro ⟨node, hn, hc⟩
      have := (Pkg.notReady_iff node.Status.Conditions).mpr hc
      rw [h1 node hn] at this
      cases this
    · rw [h2]
      obtain ⟨node, hn, hc⟩ := h1
      have hex := (Pkg.notReady_iff node.Status.Conditions).mp hc
      simp only [Prod.mk.injEq, Bool.false_eq_true, false_and, false_iff, not_not]
      exact ⟨node, hn, hex⟩
  · rcases Pkg.nodesLoop_cases nodes.Items with ⟨_, h2⟩ | ⟨_, h2⟩
    · rw [h2]
      intro h
      exact absurd rfl h
    · rw [h2]
      intro _
      exact ⟨rfl, by simp⟩

theorem isUp_deep_iff_no_explicit_not_ready_witness :
    (((Pkg.IsUp (apiReturning (NodeList.mk [nodeWithReady "True", nodeWithoutReady,
          nodeWithReady "Unknown"])) ciTestUp []).ret = (true, none) ↔
        ¬ ∃ node ∈ [nodeWithReady "True", nodeWithoutReady, nodeWithReady "Unknown"],
          ∃ c ∈ node.Status.Conditions, c.Type_ = "Ready" ∧ c.Status ≠ "True") ∧
      (Pkg.IsUp (apiReturning (NodeList.mk [nodeWithReady "True", nodeWithoutReady,
          nodeWithReady "Unknown"])) ciTestUp []).ret =
        (false, some "cluster nodes are not ready yet")) ∧
    (Pkg.IsUp (apiReturning (NodeList.mk [nodeWithReady "False"])) ciTestUp []).ret =
      (false, some "cluster nodes are not ready yet") ∧
    (Pkg.IsUp (apiReturning (NodeList.mk [nodeWithReady "true"])) ciTestUp []).ret =
      (false, some "cluster nodes are not ready yet") ∧
    (Pkg.IsUp (apiReturning (NodeList.mk [])) ciTestUp []).ret = (true, none) ∧
    (Pkg.IsUp (apiReturning (NodeList.mk [nodeWithReady "True", nodeWithReady "True"]))
      ciTestUp []).ret = (true, none) ∧
    (Pkg.IsUp (apiReturning (NodeList.mk [nodeWithoutReady, Node.mk (NodeStatus.mk [])]))
      ciTestUp []).ret = (true, none) :=
  ⟨⟨(isUp_deep_iff_no_explicit_not_ready
      (apiReturning (NodeList.mk [nodeWithReady "True", nodeWithoutReady,
        nodeWithReady "Unknown"])) ciTestUp [] () ()
      (NodeList.mk [nodeWithReady "True", nodeWithoutReady, nodeWithReady "Unknown"])
      rfl rfl rfl).1, by decide⟩,
    by decide, by decide, by decide, by decide, by decide⟩

/-! ### The runner and the outcome of the process -/

/-- In both implementations `runner` returns 0 exactly when `c.Run()` returned
nil, an `*exec.ExitError` with exit code 0, or an error of another type. -/
theorem Impl.runner_zero_iff (impl : Impl) (run : Exec) (log : List RunnerCall)
    (cmd : String) (args : List String) :
    (impl.runner run log cmd args).1 = 0 ↔
      (run log cmd args = RunOutcome.ok ∨ run log cmd args = RunOutcome.exitError 0 ∨
        ∃ msg, run log cmd args = RunOutcome.otherError msg) := by
  cases impl
  · simp only [Impl.runner, Pkg.runner, List.nil_append]
    cases run log cmd args <;> simp
  · simp only [Impl.runner, Kubetest2DkpAws.runner, List.nil_append]
    cases run log cmd args <;> simp

/-- C5 (what the code does where the claim fails): when the program cannot
be started, so that `c.Run()` returns an error that is not an
`*exec.ExitError`, `runner` reports exit code 0 in both implementations; `Up`
then returns nil and sets `KubeconfigPath`, `Down` returns nil and the shallow
`IsUp` returns `(true, nil)`, although no process exited with code 0. -/
theorem runner_reports_zero_when_process_cannot_start :
    (runNotFound [] "dkp" (Pkg.upArgs ciTest) ≠ RunOutcome.ok ∧
      (Pkg.runner runNotFound [] "dkp" (Pkg.upArgs ciTest)).1 = 0 ∧
      (Pkg.Up runNotFound ciTest []).ret = none ∧
      (Pkg.Up runNotFound ciTest []).d.KubeconfigPath = "ci-test-1.conf" ∧
      (Pkg.Down runNotFound ciTestUp []).ret = none) ∧
    (runNotFound [] "dkp" (Kubetest2DkpAws.upArgs ciTest) ≠ RunOutcome.ok ∧
      (Kubetest2DkpAws.runner runNotFound [] "dkp" (Kubetest2DkpAws.upArgs ciTest)).1 = 0 ∧
      (Kubetest2DkpAws.Up runNotFound ciTest []).ret = none ∧
      (Kubetest2DkpAws.Up runNotFound ciTest []).d.KubeconfigPath = "ci-test-1.conf" ∧
      (Kubetest2DkpAws.Down runNotFound ciTestUp []).ret = none ∧
      (Kubetest2DkpAws.IsUp runNotFound ciTestUp []).ret = (true, none)) := by
  decide

/-! ### The commands of `Up`, the direct `Down` and the shallow `IsUp` -/

/-- C7: in both implementations `Up` calls the runner exactly once, with
program `dkp` and the eleven arguments `create cluster aws --cluster-name
ClusterName --ami Ami --kubernetes-version KuberneteVersion
--with-aws-bootstrap-credentials=true --self-managed`, whether or not the
command succeeds; in the scenario `ci-test-1`, `ami-123`, `1.27.0` the vector
carries those three values and `KubeconfigPath` is `ci-test-1.conf` after
exit code 0. -/
theorem up_runs_create_cluster_once (impl : Impl) :
    (∀ (Options : Type) (run : Exec) (d : deployer Options) (log : List RunnerCall),
      (impl.Up run d log).log =
        log ++ [RunnerCall.mk "dkp"
          ["create", "cluster", "aws", "--cluster-name", d.ClusterName, "--ami", d.Ami,
           "--kubernetes-version", d.KuberneteVersion,
           "--with-aws-bootstrap-credentials=true", "--self-managed"]
          (impl.runner run log "dkp"
            ["create", "cluster", "aws", "--cluster-name", d.ClusterName, "--ami", d.Ami,
             "--kubernetes-version", d.KuberneteVersion,
             "--with-aws-bootstrap-credentials=true", "--self-managed"]).1] ∧
      List.length
        ["create", "cluster", "aws", "--cluster-name", d.ClusterName, "--ami", d.Ami,
         "--kubernetes-version", d.KuberneteVersion,
         "--with-aws-bootstrap-credentials=true", "--self-managed"] = 11) ∧
      (impl.Up runOk ciTest []).log =
        [RunnerCall.mk "dkp"
          ["create", "cluster", "aws", "--cluster-name", "ci-test-1", "--ami", "ami-123",
           "--kubernetes-version", "1.27.0",
           "--with-aws-bootstrap-credentials=true", "--self-managed"] 0] ∧
      (impl.Up runOk ciTest []).ret = none ∧
      (impl.Up runOk ciTest []).d.KubeconfigPath = "ci-test-1.conf" ∧
      (impl.Up runExit1 ciTest []).log =
        [RunnerCall.mk "dkp"
          ["create", "cluster", "aws", "--cluster-name", "ci-test-1", "--ami", "ami-123",
           "--kubernetes-version", "1.27.0",
           "--with-aws-bootstrap-credentials=true", "--self-managed"] 1] := by
  refine ⟨fun Options run d log => ⟨?_, rfl⟩, ?_⟩
  · rw [Impl.Up_log]
    cases impl <;> rfl
  · cases impl <;> decide

/-- C9: the direct `Down` calls the runner exactly once, with program `dkp`
and the arguments `delete cluster --cluster-name ClusterName
--with-aws-bootstrap-credentials=true --kubeconfig KubeconfigPath`; it returns
nil exactly when the reported exit code is 0, and leaves the deployer as it
was in both cases. -/
theorem down_direct_runs_delete_cluster_once {Options : Type} (run : Exec)
    (d : deployer Options) (log : List RunnerCall) :
    (Kubetest2DkpAws.Down run d log).log =
        log ++ [RunnerCall.mk "dkp"
          ["delete", "cluster", "--cluster-name", d.ClusterName,
           "--with-aws-bootstrap-credentials=true", "--kubeconfig", d.KubeconfigPath]
          (Kubetest2DkpAws.runner run log "dkp"
            ["delete", "cluster", "--cluster-name", d.ClusterName,
             "--with-aws-bootstrap-credentials=true", "--kubeconfig", d.KubeconfigPath]).1] ∧
      ((Kubetest2DkpAws.Down run d log).ret = none ↔
        (Kubetest2DkpAws.runner run log "dkp"
          ["delete", "cluster", "--cluster-name", d.ClusterName,
           "--with-aws-bootstrap-credentials=true", "--kubeconfig", d.KubeconfigPath]).1 = 0) ∧
      (Kubetest2DkpAws.Down run d log).d = d := by
  simp only [Kubetest2DkpAws.Down, Kubetest2DkpAws.downArgs]
  split
  · next h => exact ⟨rfl, by simp [h], rfl⟩
  · next h => exact ⟨rfl, by simpa using h, rfl⟩

/-- C10: the shallow `IsUp` calls the runner exactly once, with program
`kubectl` and the arguments `get nodes --kubeconfig KubeconfigPath`; it
returns `(true, nil)` when the reported exit code is 0 and `(false, err)`
with a non-nil `err` for every other code. -/
theorem isUp_shallow_up_iff_exit_zero {Options : Type} (run : Exec)
    (d : deployer Options) (log : List RunnerCall) :
    (Kubetest2DkpAws.IsUp run d log).log =
        log ++ [RunnerCall.mk "kubectl" ["get", "nodes", "--kubeconfig", d.KubeconfigPath]
          (Kubetest2DkpAws.runner run log "kubectl"
            ["get", "nodes", "--kubeconfig", d.KubeconfigPath]).1] ∧
      ((Kubetest2DkpAws.IsUp run d log).ret.1 = true ↔
        (Kubetest2DkpAws.runner run log "kubectl"
          ["get", "nodes", "--kubeconfig", d.KubeconfigPath]).1 = 0) ∧
      ((Kubetest2DkpAws.IsUp run d log).ret.2 = none ↔
        (Kubetest2DkpAws.runner run log "kubectl"
          ["get", "nodes", "--kubeconfig", d.KubeconfigPath]).1 = 0) ∧
      ((Kubetest2DkpAws.IsUp run d log).ret = (true, none) ∨
        (Kubetest2DkpAws.IsUp run d log).ret = (false, some "Cluster is not up")) := by
  simp only [Kubetest2DkpAws.IsUp, Kubetest2DkpAws.isUpArgs]
  split
  · next h => exact ⟨rfl, by simp [h], by simp [h], Or.inr rfl⟩
  · next h =>
    have h0 : (Kubetest2DkpAws.runner run log "kubectl"
        ["get", "nodes", "--kubeconfig", d.KubeconfigPath]).1 = 0 := by simpa using h
    exact ⟨rfl, by simp [h0], by simp [h0], Or.inl rfl⟩

/-! ### The error messages -/

theorem Pkg.downLoop_ret (run : Exec) (cmds : List (List String)) (log : List RunnerCall) :
    (Pkg.downLoop run cmds log).1 = none ∨
      (Pkg.downLoop run cmds log).1 = some "failed to delete dkp cluster" := by
  induction cmds generalizing log with
  | nil => left; rfl
  | cons a rest ih =>
    by_cases h : (Pkg.runner run log "dkp" a).1 = 0
    · rw [Pkg.downLoop_zero run a rest log h]
      exact ih _
    · rw [Pkg.downLoop_fail run a rest log h]
      right; rfl

/-- C8 (the claim fails): the bootstrap-mediated `Down` aborted at its first
step and aborted at its third step return the same error, although one ran one
command and the other three. -/
theorem down_bootstrap_error_same_at_every_step :
    (Pkg.Down (runFailAfter 0) ciTestUp []).log.length = 1 ∧
      (Pkg.Down (runFailAfter 2) ciTestUp []).log.length = 3 ∧
      (Pkg.Down (runFailAfter 0) ciTestUp []).ret ≠ none ∧
      (Pkg.Down (runFailAfter 0) ciTestUp []).ret =
        (Pkg.Down (runFailAfter 2) ciTestUp []).ret := by
  decide

/-- C8 (amended): an operation that fails because an external command failed
returns a fixed message for the operation: `failed to run dkp create cluster`
for `Up`, `failed to run dkp delete cluster` for the direct `Down`, `Cluster
is not up` for the shallow `IsUp`, and `failed to delete dkp cluster` for the
bootstrap-mediated `Down`, the same at whichever step it was aborted. -/
theorem external_failure_error_is_fixed_message {Options : Type} (run : Exec)
    (d : deployer Options) (log : List RunnerCall) :
    (∀ impl : Impl, (impl.Up run d log).ret = none ∨
        (impl.Up run d log).ret = some "failed to run dkp create cluster") ∧
      ((Kubetest2DkpAws.Down run d log).ret = none ∨
        (Kubetest2DkpAws.Down run d log).ret = some "failed to run dkp delete cluster") ∧
      ((Kubetest2DkpAws.IsUp run d log).ret = (true, none) ∨
        (Kubetest2DkpAws.IsUp run d log).ret = (false, some "Cluster is not up")) ∧
      ((Pkg.Down run d log).ret = none ∨
        (Pkg.Down run d log).ret = some "failed to delete dkp cluster") := by
  refine ⟨fun impl => ?_, ?_, ?_, ?_⟩
  · by_cases h : (impl.runner run log "dkp" (impl.upArgs d)).1 = 0
    · exact Or.inl (up_success_ret impl run d log h)
    · exact Or.inr (Impl.Up_failure impl run d log h).1
  · simp only [Kubetest2DkpAws.Down]
    split
    · exact Or.inr rfl
    · exact Or.inl rfl
  · simp only [Kubetest2DkpAws.IsUp]
    split
    · exact Or.inr rfl
    · exact Or.inl rfl
  · exact Pkg.downLoop_ret run (Pkg.downCommandArgs d) log

/-! ### `Kubeconfig` -/

theorem cleanLoop_kubeConfig (rooted : Bool) (g : Nat) (out : List Char) (dotdot : Nat) :
    cleanLoop rooted (g + 13)
      ['/', '.', 'k', 'u', 'b', 'e', '/', 'c', 'o', 'n', 'f', 'i', 'g'] out dotdot =
      appendKubeConfig rooted out := by
  simp [cleanLoop, appendKubeConfig]

theorem sepOrEnd_append (rest q : List Char) :
    (rest ++ '/' :: q = [] ∨ (rest ++ '/' :: q).head? = some '/') ↔
      (rest = [] ∨ rest.head? = some '/') := by
  cases rest <;> simp

theorem dotdotCond_append (rest q : List Char) :
    ((rest ++ '/' :: q).head? = some '.' ∧
        ((rest ++ '/' :: q).tail = [] ∨ (rest ++ '/' :: q).tail.head? = some '/')) ↔
      (rest.head? = some '.' ∧ (rest.tail = [] ∨ rest.tail.head? = some '/')) := by
  cases rest with
  | nil => simp
  | cons x r2 => cases r2 <;> simp

theorem takeWhile_append_sep (l q : List Char) :
    (l ++ '/' :: q).takeWhile (fun b => b ≠ '/') = l.takeWhile (fun b => b ≠ '/') := by
  induction l with
  | nil => simp
  | cons a l ih =>
    by_cases h : a = '/'
    · simp [h]
    · simp [List.takeWhile_cons, h]
      simpa using ih

theorem dropWhile_append_sep (l q : List Char) :
    (l ++ '/' :: q).dropWhile (fun b => b ≠ '/') =
      l.dropWhile (fun b => b ≠ '/') ++ '/' :: q := by
  induction l with
  | nil => simp
  | cons a l ih =>
    by_cases h : a = '/'
    · simp [h]
    · simp [List.dropWhile_cons, h]
      simpa using ih

theorem length_dropWhile_le (l : List Char) :
    (l.dropWhile (fun b => b ≠ '/')).length ≤ l.length := by
  induction l with
  | nil => simp
  | cons a l ih =>
    by_cases h : a = '/'
    · simp [h]
    · simp only [ne_eq, decide_not] at ih
      simp [List.dropWhile_cons, h]
      omega

theorem cleanLoop_append_kubeConfig (rooted : Bool) (f g : Nat) (p out : List Char)
    (dotdot : Nat) (hf : p.length ≤ f) (hg : g = f + 13) :
    cleanLoop rooted g
        (p ++ ['/', '.', 'k', 'u', 'b', 'e', '/', 'c', 'o', 'n', 'f', 'i', 'g']) out dotdot =
      appendKubeConfig rooted (cleanLoop rooted f p out dotdot) := by
  induction f generalizing g p out dotdot with
  | zero =>
    have hp : p = [] := List.length_eq_zero.mp (Nat.le_zero.mp hf)
    subst hp
    subst hg
    rw [List.nil_append, cleanLoop_kubeConfig]
    rfl
  | succ f ih =>
    cases p with
    | nil =>
      subst hg
      rw [List.nil_append, cleanLoop_kubeConfig]
      rfl
    | cons c rest =>
      have hr : rest.length ≤ f := by simpa using hf
      obtain ⟨g1, rfl⟩ : ∃ g1, g = g1 + 1 := ⟨f + 13, by omega⟩
      have hg1 : g1 = f + 13 := by omega
      simp only [List.cons_append, cleanLoop]
      by_cases h1 : c = '/'
      · simp only [h1, if_true]
        exact ih g1 rest out dotdot hr hg1
      · simp only [h1, if_false, sepOrEnd_append, dotdotCond_append]
        by_cases h2 : c = '.' ∧ (rest = [] ∨ rest.head? = some '/')
        · simp only [h2, and_self, if_true]
          exact ih g1 rest out dotdot hr hg1
        · simp only [h2, if_false]
          by_cases h3 : c = '.' ∧ rest.head? = some '.' ∧
              (rest.tail = [] ∨ rest.tail.head? = some '/')
          · have htail : (rest ++ ['/', '.', 'k', 'u', 'b', 'e', '/', 'c', 'o', 'n', 'f', 'i', 'g']).tail =
                rest.tail ++ ['/', '.', 'k', 'u', 'b', 'e', '/', 'c', 'o', 'n', 'f', 'i', 'g'] := by
              cases rest with
              | nil => simp at h3
              | cons x r2 => rfl
            have hrt : rest.tail.length ≤ f := by
              simp only [List.length_tail]
              omega
            simp only [h3, and_self, if_true, htail]
            split_ifs <;> exact ih g1 _ _ _ hrt hg1
          · have hdw := length_dropWhile_le rest
            simp only [h3, if_false]
            rw [← List.cons_append, takeWhile_append_sep, dropWhile_append_sep]
            have hdrop : (c :: rest).dropWhile (fun b => b ≠ '/') =
                rest.dropWhile (fun b => b ≠ '/') := by
              simp [List.dropWhile_cons, h1]
            rw [hdrop]
            exact ih g1 _ _ _ (le_trans hdw hr) hg1

theorem intercalate_home_data (l : List Char) :
    ("/".intercalate [String.mk l, ".kube", "config"]).data =
      l ++ ['/', '.', 'k', 'u', 'b', 'e', '/', 'c', 'o', 'n', 'f', 'i', 'g'] := by
  simp [String.intercalate, String.intercalate.go, String.data_append]

theorem filepathJoin_clean_home (home : String) (hclean : filepathClean home = home)
    (hroot : home ≠ "/") (hdot : home ≠ ".") :
    filepathJoin [home, ".kube", "config"] = home ++ "/.kube/config" := by
  obtain ⟨l⟩ := home
  cases l with
  | nil =>
    exfalso
    revert hclean
    decide
  | cons c rest =>
    have hne : String.mk (c :: rest) ≠ "" := by
      intro h
      have := congrArg String.data h
      simp at this
    simp only [filepathJoin, hne, ne_eq, not_false_eq_true, if_true]
    have hmk : ∀ a b : List Char, String.mk a = String.mk b → a = b :=
      fun a b h => congrArg String.data h
    have happ : String.mk (c :: rest) ++ "/.kube/config" =
        String.mk (c :: rest ++ ['/', '.', 'k', 'u', 'b', 'e', '/', 'c', 'o', 'n', 'f', 'i', 'g']) := by
      apply String.ext
      simp [String.data_append]
    simp only [filepathClean, intercalate_home_data, List.cons_append] at hclean ⊢
    by_cases hc : c = '/'
    · subst hc
      simp only [if_true] at hclean ⊢
      have hlen : (rest ++ ['/', '.', 'k', 'u', 'b', 'e', '/', 'c', 'o', 'n', 'f', 'i', 'g']).length =
          rest.length + 13 := by simp
      rw [cleanLoop_append_kubeConfig true rest.length _ rest ['/'] 1 (le_refl _) hlen]
      have hout : cleanLoop true rest.length rest ['/'] 1 = '/' :: rest := by
        by_cases he : cleanLoop true rest.length rest ['/'] 1 = []
        · rw [if_pos he] at hclean
          exact absurd (hmk _ _ hclean) (by simp)
        · rw [if_neg he] at hclean
          exact hmk _ _ hclean
      have hrest : rest ≠ [] := by
        intro h
        subst h
        exact hroot rfl
      have hl1 : rest.length ≠ 0 := by
        intro h
        exact hrest (List.length_eq_zero.mp h)
      rw [hout, happ]
      simp [appendKubeConfig, hl1]
    · simp only [hc, if_false] at hclean ⊢
      have hlen : (c :: rest ++ ['/', '.', 'k', 'u', 'b', 'e', '/', 'c', 'o', 'n', 'f', 'i', 'g']).length =
          (c :: rest).length + 13 := by simp
      rw [← List.cons_append,
        cleanLoop_append_kubeConfig false (c :: rest).length _ (c :: rest) [] 0 (le_refl _) hlen]
      have hout : cleanLoop false (c :: rest).length (c :: rest) [] 0 = c :: rest := by
        by_cases he : cleanLoop false (c :: rest).length (c :: rest) [] 0 = []
        · rw [if_pos he] at hclean
          exact absurd hclean.symm hdot
        · rw [if_neg he] at hclean
          exact hmk _ _ hclean
      rw [hout, happ]
      simp [appendKubeConfig]

/-- C6 (the claim fails): with no recorded path, `KUBECONFIG` unset and the
home directory `/`, `Kubeconfig` returns `/.kube/config` in both
implementations, not the home directory followed by `/.kube/config`. -/
theorem kubeconfig_home_root_is_cleaned :
    (Pkg.Kubeconfig osRootHome ciTest []).ret = ("/.kube/config", none) ∧
      (Pkg.Kubeconfig osRootHome ciTest []).ret ≠ ("/" ++ "/.kube/config", none) ∧
      (Kubetest2DkpAws.Kubeconfig osRootHome ciTest []).ret = ("/.kube/config", none) ∧
      (Kubetest2DkpAws.Kubeconfig osRootHome ciTest []).ret ≠
        ("/" ++ "/.kube/config", none) := by
  decide

/-- C6 (amended): in both implementations `Kubeconfig` resolves in a fixed
order, first match wins: a non-empty `KubeconfigPath` is returned whatever the
environment; otherwise the value of `KUBECONFIG` when it is set, the empty
string included; otherwise `filepath.Join(home, ".kube", "config")`, which is
`home` followed by `/.kube/config` whenever `home` is a cleaned path other
than `/` and `.`; an error with an empty path is returned only when the path
is empty, `KUBECONFIG` is unset and the home directory is unknown.  The
deployer is never modified and no process is launched. -/
theorem kubeconfig_resolution_order {Options : Type} (impl : Impl) (os : OS)
    (d : deployer Options) (log : List RunnerCall) :
    (d.KubeconfigPath ≠ "" → (impl.Kubeconfig os d log).ret = (d.KubeconfigPath, none)) ∧
      (d.KubeconfigPath = "" → ∀ kconfig : String,
        os.LookupEnv "KUBECONFIG" = some kconfig →
          (impl.Kubeconfig os d log).ret = (kconfig, none)) ∧
      (d.KubeconfigPath = "" → os.LookupEnv "KUBECONFIG" = none → ∀ home : String,
        os.UserHomeDir = Except.ok home →
          (impl.Kubeconfig os d log).ret = (filepathJoin [home, ".kube", "config"], none) ∧
          (filepathClean home = home → home ≠ "/" → home ≠ "." →
            (impl.Kubeconfig os d log).ret = (home ++ "/.kube/config", none))) ∧
      (d.KubeconfigPath = "" → os.LookupEnv "KUBECONFIG" = none → ∀ err : String,
        os.UserHomeDir = Except.error err →
          (impl.Kubeconfig os d log).ret = ("", some err)) ∧
      ((impl.Kubeconfig os d log).ret.2 ≠ none →
        d.KubeconfigPath = "" ∧ os.LookupEnv "KUBECONFIG" = none ∧
          (∃ err : String, os.UserHomeDir = Except.error err) ∧
          (impl.Kubeconfig os d log).ret.1 = "") ∧
      (impl.Kubeconfig os d log).d = d ∧ (impl.Kubeconfig os d log).log = log := by
  have hret : (impl.Kubeconfig os d log).ret =
      if d.KubeconfigPath ≠ "" then (d.KubeconfigPath, none)
      else match os.LookupEnv "KUBECONFIG" with
        | some kconfig => (kconfig, none)
        | none => match os.UserHomeDir with
          | Except.error err => ("", some err)
          | Except.ok home => (filepathJoin [home, ".kube", "config"], none) := by
    cases impl
    · simp only [Impl.Kubeconfig, Pkg.Kubeconfig]
      split
      · rfl
      · split
        · rfl
        · split <;> rfl
    · simp only [Impl.Kubeconfig, Kubetest2DkpAws.Kubeconfig]
      split
      · rfl
      · split
        · rfl
        · split <;> rfl
  have hlog : (impl.Kubeconfig os d log).log = log := by
    cases impl
    · simp only [Impl.Kubeconfig, Pkg.Kubeconfig]
      split
      · rfl
      · split
        · rfl
        · split <;> rfl
    · simp only [Impl.Kubeconfig, Kubetest2DkpAws.Kubeconfig]
      split
      · rfl
      · split
        · rfl
        · split <;> rfl
  refine ⟨?_, ?_, ?_, ?_, ?_, Impl.Kubeconfig_d impl os d log, hlog⟩
  · intro h
    rw [hret, if_pos h]
  · intro h kconfig hk
    rw [hret, if_neg (not_not.mpr h), hk]
  · intro h hk home hh
    have h1 : (impl.Kubeconfig os d log).ret =
        (filepathJoin [home, ".kube", "config"], none) := by
      rw [hret, if_neg (not_not.mpr h), hk, hh]
    refine ⟨h1, fun hclean hroot hdot => ?_⟩
    rw [h1, filepathJoin_clean_home home hclean hroot hdot]
  · intro h hk err hh
    rw [hret, if_neg (not_not.mpr h), hk, hh]
  · rw [hret]
    intro herr
    by_cases h : d.KubeconfigPath = ""
    · rw [if_neg (not_not.mpr h)] at herr ⊢
      cases hk : os.LookupEnv "KUBECONFIG" with
      | some kconfig =>
        rw [hk] at herr
        exact absurd rfl herr
      | none =>
        rw [hk] at herr
        cases hh : os.UserHomeDir with
        | ok home =>
          rw [hh] at herr
          exact absurd rfl herr
        | error err => exact ⟨h, rfl, ⟨err, rfl⟩, rfl⟩
    · rw [if_pos h] at herr
      exact absurd rfl herr

theorem kubeconfig_resolution_order_witness :
    (ciTestUp.KubeconfigPath ≠ "" ∧
      (Impl.pkg.Kubeconfig osEmptyKubeconfig ciTestUp []).ret = ("ci-test-1.conf", none)) ∧
    (ciTest.KubeconfigPath = "" ∧ osEmptyKubeconfig.LookupEnv "KUBECONFIG" = some "" ∧
      (Impl.kubetest2DkpAws.Kubeconfig osEmptyKubeconfig ciTest []).ret = ("", none)) ∧
    (osPlain.LookupEnv "KUBECONFIG" = none ∧ osPlain.UserHomeDir = Except.ok "/home/ci" ∧
      filepathClean "/home/ci" = "/home/ci" ∧
      (Impl.pkg.Kubeconfig osPlain ciTest []).ret = ("/home/ci" ++ "/.kube/config", none)) ∧
    (osNoHome.UserHomeDir = Except.error "$HOME is not defined" ∧
      (Impl.pkg.Kubeconfig osNoHome ciTest []).ret = ("", some "$HOME is not defined")) ∧
    ((Impl.pkg.Kubeconfig osNoHome ciTest []).ret.2 ≠ none ∧
      (∃ err : String, osNoHome.UserHomeDir = Except.error err)) :=
  ⟨⟨by decide,
    (kubeconfig_resolution_order Impl.pkg osEmptyKubeconfig ciTestUp []).1 (by decide)⟩,
   ⟨by decide, by decide,
    (kubeconfig_resolution_order Impl.kubetest2DkpAws osEmptyKubeconfig ciTest []).2.1
      (by decide) "" (by decide)⟩,
   ⟨by decide, rfl, by decide,
    ((kubeconfig_resolution_order Impl.pkg osPlain ciTest []).2.2.1
      (by decide) (by decide) "/home/ci" rfl).2 (by decide) (by decide) (by decide)⟩,
   ⟨rfl,
    (kubeconfig_resolution_order Impl.pkg osNoHome ciTest []).2.2.2.1
      (by decide) (by decide) "$HOME is not defined" rfl⟩,
   ⟨by decide,
    ((kubeconfig_resolution_order Impl.pkg osNoHome ciTest []).2.2.2.2.1 (by decide)).2.2.1⟩⟩

end Deployer
